import Mathlib

/-!
Shallow embedding of the NOTAM ingestion, normalization and state-derivation
engine of the airfield-dashboard backend (canonical variant:
src/backend/server.js, SWIM + scraper server on port 5000; auxiliary
variants from the unnamed server iterations where a claim cites them).

Strings are modelled as Lean `String` / `List Char`; times (JS `Date`
millisecond values) as `Int`.  Each definition carries a comment naming the
JS source it embeds.
-/

namespace AirfieldDashboard

/-! ## Character and string utilities (JS string/regex primitives) -/

/-- JS `\s` character class, restricted to the ASCII whitespace characters
that occur in NOTAM payloads: space, tab, newline, vertical tab, form feed,
carriage return. -/
def isWsChar (c : Char) : Bool :=
  c = ' ' || c = '\t' || c = '\n' || c = '\x0b' || c = '\x0c' || c = '\r'

/-- JS `\w` word-character class `[A-Za-z0-9_]` (used for `\b` boundaries). -/
def isWordChar (c : Char) : Bool :=
  c.isAlphanum || c = '_'

/-- Case-insensitive character comparison (ASCII case folding), for regexes
with the `i` flag. -/
def ciEq (a b : Char) : Bool :=
  a.toUpper = b.toUpper

/-- Case-insensitive "the pattern occurs at the start of `s`" test. -/
def ciStartsWith : List Char → List Char → Bool
  | [], _ => true
  | _ :: _, [] => false
  | p :: ps, c :: cs => ciEq p c && ciStartsWith ps cs

/-- Embeds `s.includes(pat)`: case-sensitive substring containment. -/
def containsCL (pat : List Char) : List Char → Bool
  | [] => pat.isEmpty
  | c :: cs => pat.isPrefixOf (c :: cs) || containsCL pat cs

/-- Case-insensitive substring containment (for regexes with the `i` flag). -/
def containsCICL (pat : List Char) : List Char → Bool
  | [] => pat.isEmpty
  | c :: cs => ciStartsWith pat (c :: cs) || containsCICL pat cs

/-- String-level `s.includes(pat)`. -/
def containsSubStr (pat s : String) : Bool :=
  containsCL pat.toList s.toList

/-- JS `String.prototype.toUpperCase` (ASCII). -/
def upperCL (s : List Char) : List Char :=
  s.map Char.toUpper

/-- JS `trim()`: strip leading and trailing whitespace. -/
def trimCL (s : List Char) : List Char :=
  ((s.dropWhile isWsChar).reverse.dropWhile isWsChar).reverse

/-- JS `replace(/\s+/g, " ")` as a character state machine; `prevWs` is
true when the previous character was part of a whitespace run (already
emitted as one space). -/
def collapseWsAux (prevWs : Bool) : List Char → List Char
  | [] => []
  | c :: cs =>
    if isWsChar c then
      if prevWs then collapseWsAux true cs
      else ' ' :: collapseWsAux true cs
    else c :: collapseWsAux false cs

/-- JS `replace(/\s+/g, " ")`: collapse each maximal whitespace run to a
single space. -/
def collapseWsCL (s : List Char) : List Char :=
  collapseWsAux false s

/-! ## Tag stripping

`replace(/<[^>]+>/g, repl)`: every `<`, followed by one or more non-`>`
characters, followed by `>`, is replaced by `repl`.  The feed handler uses
`repl = " "`, the scraper's regex fallback uses `repl = ""`.

State machine: `buf = some b` means the scan is inside a candidate tag
opened by `<`, with `b` the (reversed) characters seen since.  A `>` closes
it: a non-empty interior is a match (replaced by `repl`), an empty interior
(`<>`) is not (`[^>]+` needs one character), and both characters are kept.
An unclosed `<` at the end of input is no match and is emitted verbatim;
no later match can start inside it, since any `<` in the interior would
share the same missing `>`. -/

def stripTagsAux (repl : List Char) (buf : Option (List Char)) : List Char → List Char
  | [] =>
    (match buf with
     | some b => '<' :: b.reverse
     | none => [])
  | c :: cs =>
    match buf with
    | some b =>
      if c = '>' then
        if b.isEmpty then '<' :: '>' :: stripTagsAux repl none cs
        else repl ++ stripTagsAux repl none cs
      else stripTagsAux repl (some (c :: b)) cs
    | none =>
      if c = '<' then stripTagsAux repl (some []) cs
      else c :: stripTagsAux repl none cs

def stripTagsCL (repl : List Char) (s : List Char) : List Char :=
  stripTagsAux repl none s

/-! ## `cleanNotamText` (src/backend/server.js lines 204-217)

Each `cleanR<n>` embeds one `replace` in the source's order. -/

/-- Rule 1, `replace(/^.*?(NOTAM\s)/s, "$1")`: drop everything before the
first occurrence of `NOTAM` followed by a whitespace character (the matched
`NOTAM\s` itself is put back by `$1`); unchanged when there is none. -/
def findNotamWs : List Char → Option (List Char)
  | [] => none
  | c :: cs =>
    if "NOTAM".toList.isPrefixOf (c :: cs) then
      match (c :: cs).drop 5 with
      | d :: _ => if isWsChar d then some (c :: cs) else findNotamWs cs
      | [] => findNotamWs cs
    else findNotamWs cs

def cleanR1 (s : List Char) : List Char :=
  (findNotamWs s).getD s

/-- Rule 2, `replace(/\([^)]*KMGM[^)]*\)/gi, "(KMGM)")`, as a state
machine: `buf = some b` is an open parenthesis with reversed interior `b`
(interior may not contain `)`).  At the closing `)`, an interior containing
`KMGM` (case-insensitively) is a match, replaced by `(KMGM)`; otherwise the
whole span is emitted unchanged — no match can start inside it, since any
inner `(` shares the same first `)` and a subset interior.  An unclosed `(`
at the end of input is emitted verbatim for the same reason. -/
def cleanR2Aux (buf : Option (List Char)) : List Char → List Char
  | [] =>
    (match buf with
     | some b => '(' :: b.reverse
     | none => [])
  | c :: cs =>
    match buf with
    | some b =>
      if c = ')' then
        if containsCICL "KMGM".toList b.reverse then
          "(KMGM)".toList ++ cleanR2Aux none cs
        else ('(' :: b.reverse) ++ ')' :: cleanR2Aux none cs
      else cleanR2Aux (some (c :: b)) cs
    | none =>
      if c = '(' then cleanR2Aux (some []) cs
      else c :: cleanR2Aux none cs

def cleanR2 (s : List Char) : List Char :=
  cleanR2Aux none s

/-- Left word boundary for `\b`: true at the start of the string or after a
non-word character. -/
def boundaryBefore (prev : Option Char) : Bool :=
  match prev with
  | none => true
  | some p => !(isWordChar p)

/-- In `\bNOTAM[NRC]\b` at position `c :: cs` (so the `[NRC]` candidate is
`cs.drop 4`): the sixth character is `N`, `R` or `C` (case-insensitive) and
is followed by a word boundary. -/
def nrcTailOk (cs : List Char) : Bool :=
  match cs.drop 4 with
  | d :: rest =>
    (d.toUpper = 'N' || d.toUpper = 'R' || d.toUpper = 'C') &&
      (match rest with
       | [] => true
       | e :: _ => !(isWordChar e))
  | [] => false

/-- Rule 3, `replace(/\bNOTAM[NRC]\b/gi, "")`: remove every word-bounded
`NOTAMN` / `NOTAMR` / `NOTAMC` (case-insensitive).  `prev` is the character
preceding the current scan position (`none` at the start of the string),
used to decide the left word boundary.  `skip > 0` means the scan is still
consuming the characters of a recognized match (dropping them); the scan
resumes after the match, whose last character becomes `prev`. -/
def cleanR3Aux (prev : Option Char) (skip : Nat) : List Char → List Char
  | [] => []
  | c :: cs =>
    match skip with
    | k + 1 => cleanR3Aux (some c) k cs
    | 0 =>
      if boundaryBefore prev && ciStartsWith "NOTAM".toList (c :: cs) && nrcTailOk cs then
        cleanR3Aux (some c) 5 cs
      else c :: cleanR3Aux (some c) 0 cs

def cleanR3 (s : List Char) : List Char :=
  cleanR3Aux none 0 s

/-- In `Q\)[^\n]+` at position `c :: cs`: the next character is `)` and is
followed by at least one non-newline character. -/
def qTailOk (cs : List Char) : Bool :=
  match cs with
  | c2 :: d :: _ => c2 = ')' && d ≠ '\n'
  | _ => false

/-- Rule 4, `replace(/Q\)[^\n]+/gi, "")`: remove every `Q)` (or `q)`)
followed by at least one non-newline character, up to the end of the line.
`mode` state: 0 = scanning, 1 = consuming the `)` of a match, 2 = dropping
the rest of the matched line (`[^\n]+` is greedy; the newline itself is not
part of the match and is kept). -/
def cleanR4Aux (mode : Nat) : List Char → List Char
  | [] => []
  | c :: cs =>
    match mode with
    | 1 => cleanR4Aux 2 cs
    | 2 =>
      if c = '\n' then c :: cleanR4Aux 0 cs
      else cleanR4Aux 2 cs
    | _ =>
      if (c = 'Q' || c = 'q') && qTailOk cs then cleanR4Aux 1 cs
      else c :: cleanR4Aux 0 cs

def cleanR4 (s : List Char) : List Char :=
  cleanR4Aux 0 s

/-- Rule 5, `replace(/^.*?(?=A\))/s, "")`: drop everything before the first
occurrence of `A)`; unchanged when there is none (the lookahead never
matches, so the lazy `.*?` never completes a match). -/
def findAParen : List Char → Option (List Char)
  | [] => none
  | c :: cs =>
    if "A)".toList.isPrefixOf (c :: cs) then some (c :: cs)
    else findAParen cs

def cleanR5 (s : List Char) : List Char :=
  (findAParen s).getD s

/-- In `TAG[^\n]+` at position `c :: cs` with a tag of length
`ps.length + 1`: at least one non-newline character follows the tag. -/
def tagTailOk (ps cs : List Char) : Bool :=
  match cs.drop ps.length with
  | d :: _ => d ≠ '\n'
  | [] => false

/-- Rules 6 and 7, `replace(/CREATED:[^\n]+/gi, "")` and
`replace(/SOURCE:[^\n]+/gi, "")`: remove the case-insensitive tag
(`p0 :: ps`) and the rest of its line (at least one non-newline character
must follow).  `mode` state: `none` = scanning, `some (k+1)` = still
consuming the `k+1` remaining tag characters, `some 0` = dropping the rest
of the matched line. -/
def removeTagLineAux (p0 : Char) (ps : List Char) (mode : Option Nat) :
    List Char → List Char
  | [] => []
  | c :: cs =>
    match mode with
    | some (k + 1) => removeTagLineAux p0 ps (some k) cs
    | some 0 =>
      if c = '\n' then c :: removeTagLineAux p0 ps none cs
      else removeTagLineAux p0 ps (some 0) cs
    | none =>
      if ciStartsWith (p0 :: ps) (c :: cs) && tagTailOk ps cs then
        removeTagLineAux p0 ps (some ps.length) cs
      else c :: removeTagLineAux p0 ps none cs

def removeTagLine (p0 : Char) (ps : List Char) (s : List Char) : List Char :=
  removeTagLineAux p0 ps none s

/-- Embeds `cleanNotamText` (src/backend/server.js lines 204-217): the full
normalization pipeline, with the source's `trim()` calls in place. -/
def cleanNotamTextCL (raw : List Char) : List Char :=
  let t1 := cleanR1 raw
  let t2 := cleanR2 t1
  let t3 := cleanR3 t2
  let t4 := trimCL (cleanR4 t3)
  let t5 := trimCL (cleanR5 t4)
  let t6 := trimCL (removeTagLine 'C' "REATED:".toList t5)
  let t7 := trimCL (removeTagLine 'S' "OURCE:".toList t6)
  trimCL (collapseWsCL t7)

def cleanNotamText (raw : String) : String :=
  ⟨cleanNotamTextCL raw.toList⟩

/-! ## Severity classifier: `notamPriority` (src/backend/server.js lines 222-233) -/

def criticalKeywords : List String := ["CLOSURE", "CLSD", "UNSERVICEABLE", "U/S", "CLOSED"]

def highKeywords : List String := ["OBSTACLE", "OBSTN", "WORK IN PROGRESS", "WIP"]

def mediumKeywords : List String := ["LIGHT OUT", "LGT U/S", "MARKING", "PAINT", "BIRD"]

/-- Embeds `notamPriority(text)`: keyword containment (`upper.includes(k)`) on the
uppercased text, checks in fixed order critical, high, medium; everything
else is 4. -/
def notamPriority (text : String) : Nat :=
  if criticalKeywords.any (fun k => containsCL k.toList (upperCL text.toList)) then 1
  else if highKeywords.any (fun k => containsCL k.toList (upperCL text.toList)) then 2
  else if mediumKeywords.any (fun k => containsCL k.toList (upperCL text.toList)) then 3
  else 4

/-! ## Navaid outage patterns (src/backend/server.js lines 238-245)

Each regex is compiled by hand.  JS `.` (no `s` flag) matches any character
except a line terminator, so every `X.*Y` segment must lie on a single
line; `\s*` before a non-whitespace literal is equivalent to dropping all
leading whitespace. -/

/-- JS `.` character class (no `s` flag): not a line terminator. -/
def notNL (c : Char) : Bool :=
  c ≠ '\n' && c ≠ '\r'

/-- Embeds `.*pat`: `pat` occurs in the line-terminator-free prefix of `s`. -/
def dotStarThen (pat : List Char) (s : List Char) : Bool :=
  containsCL pat (s.takeWhile notNL)

/-- Existential search over every scan position of the string (including
the empty tail), the regex engine's outer search loop. -/
def scanAny (p : List Char → Bool) : List Char → Bool
  | [] => p []
  | c :: cs => p (c :: cs) || scanAny p cs

/-- Suffix after the first occurrence of `pat`, `none` if `pat` does not
occur. -/
def findSub (pat : List Char) : List Char → Option (List Char)
  | [] => if pat.isEmpty then some [] else none
  | c :: cs =>
    if pat.isPrefixOf (c :: cs) then some ((c :: cs).drop pat.length)
    else findSub pat cs

/-- Embeds `p1.*p2` inside an already line-bounded span: `p1` occurs, and `p2`
occurs after it.  (Taking the first occurrence of `p1` is complete: any
later occurrence leaves a smaller suffix for `p2`.) -/
def chainFind2 (p1 p2 : List Char) (s : List Char) : Bool :=
  match findSub p1 s with
  | some rest => containsCL p2 rest
  | none => false

/-- Embeds `ILS\s*10.*U\/S` anchored at the current position. -/
def ils10Here (s : List Char) : Bool :=
  "ILS".toList.isPrefixOf s &&
    (let r := (s.drop 3).dropWhile isWsChar
     "10".toList.isPrefixOf r && dotStarThen "U/S".toList (r.drop 2))

/-- Embeds `ILS RWY 10.*UNSERVICEABLE` anchored at the current position. -/
def ilsRwy10Here (s : List Char) : Bool :=
  "ILS RWY 10".toList.isPrefixOf s && dotStarThen "UNSERVICEABLE".toList (s.drop 10)

/-- Embeds `/ILS\s*10.*U\/S|ILS RWY 10.*UNSERVICEABLE/.test(txt)`. -/
def ils10OutageCL (txt : List Char) : Bool :=
  scanAny ils10Here txt || scanAny ilsRwy10Here txt

/-- Embeds `ILS\s*28.*U\/S` anchored at the current position. -/
def ils28Here (s : List Char) : Bool :=
  "ILS".toList.isPrefixOf s &&
    (let r := (s.drop 3).dropWhile isWsChar
     "28".toList.isPrefixOf r && dotStarThen "U/S".toList (r.drop 2))

/-- Embeds `ILS RWY 28.*UNSERVICEABLE` anchored at the current position. -/
def ilsRwy28Here (s : List Char) : Bool :=
  "ILS RWY 28".toList.isPrefixOf s && dotStarThen "UNSERVICEABLE".toList (s.drop 10)

/-- Embeds `/ILS\s*28.*U\/S|ILS RWY 28.*UNSERVICEABLE/.test(txt)`. -/
def ils28OutageCL (txt : List Char) : Bool :=
  scanAny ils28Here txt || scanAny ilsRwy28Here txt

/-- Embeds `MGM.*TACAN.*U\/S` anchored at the current position. -/
def mgmHere (s : List Char) : Bool :=
  "MGM".toList.isPrefixOf s &&
    chainFind2 "TACAN".toList "U/S".toList ((s.drop 3).takeWhile notNL)

/-- Embeds `/MGM.*TACAN.*U\/S/.test(txt)`. -/
def mgmOutageCL (txt : List Char) : Bool :=
  scanAny mgmHere txt

/-- Embeds `MXF.*TACAN.*U\/S` anchored at the current position. -/
def mxfHere (s : List Char) : Bool :=
  "MXF".toList.isPrefixOf s &&
    chainFind2 "TACAN".toList "U/S".toList ((s.drop 3).takeWhile notNL)

/-- Embeds `/MXF.*TACAN.*U\/S/.test(txt)`. -/
def mxfOutageCL (txt : List Char) : Bool :=
  scanAny mxfHere txt

/-! ## Data model -/

/-- The record shape pushed into `activeNotams` by both ingestion paths of
src/backend/server.js (times are JS `Date` millisecond values). -/
structure Notam where
  id : String
  icao : String
  text : String
  startTime : Int
  endTime : Int
deriving DecidableEq, Repr

/-- Embeds `navaidsStatus` (src/backend/server.js lines 161-166); `true` =
available. -/
structure NavaidsStatus where
  ils10 : Bool
  ils28 : Bool
  mgm : Bool
  mxf : Bool
deriving DecidableEq, Repr

/-- The all-available baseline the sweep resets to (line 178). -/
def allAvailable : NavaidsStatus :=
  ⟨true, true, true, true⟩

/-- Embeds `updateNavaidsFromNotam` (src/backend/server.js lines 238-245): each
matching outage pattern sets its flag to `false`; nothing ever sets a flag
back to `true`. -/
def updateNavaidsFromNotam (st : NavaidsStatus) (n : Notam) : NavaidsStatus :=
  let txt := upperCL n.text.toList
  let s1 := if ils10OutageCL txt then { st with ils10 := false } else st
  let s2 := if ils28OutageCL txt then { s1 with ils28 := false } else s1
  let s3 := if mgmOutageCL txt then { s2 with mgm := false } else s2
  if mxfOutageCL txt then { s3 with mxf := false } else s3

/-- Reset-and-reapply derivation over an active record set (sweep lines
178-180: reset to all-available, then `forEach(updateNavaidsFromNotam)`).
Also the value `navaidsStatus` accumulates to along any ingestion history,
since it starts all-available and each insert applies
`updateNavaidsFromNotam`. -/
def deriveNavaids (rs : List Notam) : NavaidsStatus :=
  rs.foldl updateNavaidsFromNotam allAvailable

/-- The mutable module state of src/backend/server.js: `activeNotams` and
`navaidsStatus`. -/
structure ServerState where
  activeNotams : List Notam
  navaids : NavaidsStatus
deriving DecidableEq, Repr

/-! ## Expiry sweep (src/backend/server.js lines 171-184) -/

/-- Embeds `activeNotams.filter(n => new Date(n.endTime) > now)`. -/
def sweepRecords (now : Int) (rs : List Notam) : List Notam :=
  rs.filter (fun n => now < n.endTime)

/-- One tick of the 5-minute cleanup interval: filter out expired records;
if anything was removed, reset the navaid flags to all-available and
reapply every remaining record. -/
def sweepStep (now : Int) (st : ServerState) : ServerState :=
  let remaining := sweepRecords now st.activeNotams
  if remaining.length ≠ st.activeNotams.length then
    ⟨remaining, deriveNavaids remaining⟩
  else
    ⟨remaining, st.navaids⟩

/-! ## SWIM feed consumer (src/backend/server.js lines 343-379) -/

/-- The payload fields a SWIM message may carry, in the transport encodings
the handler probes (`none` models an absent accessor or `null` result). -/
structure SwimMsg where
  binaryAttachment : Option String
  xmlContent : Option String
  textAttachment : Option String

/-- JS truthiness of an optional string: the empty string is falsy, so it
does not stop the fallback chain. -/
def pickNE (o : Option String) : Option String :=
  match o with
  | some s => if s.isEmpty then none else some s
  | none => none

/-- Lines 345-350: try binary attachment, then XML content, then text
attachment; the first truthy (non-empty) payload wins. -/
def extractPayload (m : SwimMsg) : Option String :=
  match pickNE m.binaryAttachment with
  | some s => some s
  | none =>
    match pickNE m.xmlContent with
    | some s => some s
    | none => pickNE m.textAttachment

/-- Line 357: `xml.replace(/<[^>]+>/g, " ").replace(/\s+/g, " ").trim()`. -/
def swimTextRaw (xml : String) : String :=
  ⟨trimCL (collapseWsCL (stripTagsCL [' '] xml.toList))⟩

/-- Line 360, `cleaned.includes("KMGM")`: the location test deciding whether
the message is kept (`icao === "KMGM"`) or ignored. -/
def kmgmKeep (xml : String) : Bool :=
  containsSubStr "KMGM" (cleanNotamText (swimTextRaw xml))

/-- The MESSAGE handler (lines 343-379): extract a payload, strip tags,
normalize; keep the record only when the cleaned text contains `KMGM`
(line 360); a kept record is pushed with `id = Date.now().toString()` and a
24-hour validity window, and the navaid flags are updated from it.  In all
other cases the state is returned unchanged (the handler `return`s or falls
into the ignore branch). -/
def handleMessage (now : Int) (m : SwimMsg) (st : ServerState) : ServerState :=
  match extractPayload m with
  | none => st
  | some xml =>
    if kmgmKeep xml then
      let n : Notam :=
        ⟨toString now, "KMGM", cleanNotamText (swimTextRaw xml), now, now + 86400000⟩
      ⟨st.activeNotams ++ [n], updateNavaidsFromNotam st.navaids n⟩
    else st

/-- Consuming a message stream one at a time. -/
def handleMessages (now : Int) (ms : List SwimMsg) (st : ServerState) : ServerState :=
  ms.foldl (fun s m => handleMessage now m s) st

/-! ## Read query (src/backend/server.js lines 402-408) -/

/-- The `GET /api/notams` filter: `n.icao === "KMGM" ||
n.text.includes("KMGM")`. -/
def kmgmMatch (n : Notam) : Bool :=
  n.icao = "KMGM" || containsSubStr "KMGM" n.text

/-- The comparator `(a, b) => notamPriority(a.text) - notamPriority(b.text)`
as the total preorder it sorts by. -/
def priorityLe (a b : Notam) : Bool :=
  decide (notamPriority a.text ≤ notamPriority b.text)

/-- Embeds `GET /api/notams`: filter to KMGM records, then
`.sort((a, b) => notamPriority(a.text) - notamPriority(b.text))` — a stable
ascending sort by priority (ES2019 `Array.prototype.sort` is stable, and a
stable sort by a total preorder is unique), embedded as the stable
`mergeSort`. -/
def apiNotams (rs : List Notam) : List Notam :=
  (rs.filter kmgmMatch).mergeSort priorityLe

/-! ## Baseline scraper (src/backend/server.js lines 250-311)

The cheerio selector `$("div[class*='notam'], div[class*='NOTAM']")` is an
external HTML parser; its result is modelled as the list `divTexts` of the
selected elements' text contents.  The regex fallback
`html.match(/NOTAM[\s\S]*?(?=<\/div>|<\/p>)/gi)` is embedded faithfully. -/

/-- The lookahead `(?=<\/div>|<\/p>)` (case-insensitive). -/
def termHere (s : List Char) : Bool :=
  ciStartsWith "</div>".toList s || ciStartsWith "</p>".toList s

/-- Embeds `html.match(/NOTAM[\s\S]*?(?=<\/div>|<\/p>)/gi)` as a state machine:
`buf = some b` means a match candidate is open (started at a case-insensitive
`NOTAM`), with `b` the reversed characters consumed so far; the lazy
`[\s\S]*?` stops at the first position where the terminator lookahead
matches, the block is emitted, and the scan resumes at the (unconsumed)
terminator — whose `<` cannot itself start a `NOTAM`, so the scan steps
over it.  A still-open candidate at the end of input is no match, and no
later start can succeed either (any later `NOTAM` would need a terminator
even further right), so it is discarded.  The `NOTAM` literal contains no
`<`, so the lookahead test cannot fire inside it. -/
def findBlocksAux (buf : Option (List Char)) : List Char → List (List Char)
  | [] => []
  | c :: cs =>
    match buf with
    | some b =>
      if termHere (c :: cs) then b.reverse :: findBlocksAux none cs
      else findBlocksAux (some (c :: b)) cs
    | none =>
      if ciStartsWith "NOTAM".toList (c :: cs) then findBlocksAux (some [c]) cs
      else findBlocksAux none cs

def findBlocksCL (s : List Char) : List (List Char) :=
  findBlocksAux none s

def regexFallbackBlocks (html : String) : List String :=
  (findBlocksCL html.toList).map (fun l => ⟨l⟩)

/-- Regex-fallback branch, per block (lines 272-273):
`block.replace(/<[^>]+>/g, "").replace(/\s+/g, " ").trim()` then
`cleanNotamText`. -/
def blockCleaned (s : String) : String :=
  cleanNotamText ⟨trimCL (collapseWsCL (stripTagsCL [] s.toList))⟩

/-- Cheerio branch, per element (line 291):
`$(el).text().replace(/\s+/g, " ").trim()` then `cleanNotamText`. -/
def divCleaned (s : String) : String :=
  cleanNotamText ⟨trimCL (collapseWsCL s.toList)⟩

/-- A baseline record (lines 276-282): synthetic id from the scrape time
and the block's index, fixed 24-hour validity window. -/
def baselineRecordOf (now : Int) (idx : Nat) (cleaned : String) : Notam :=
  ⟨"BASE-" ++ toString now ++ "-" ++ toString idx, "KMGM", cleaned, now, now + 86400000⟩

/-- The records `fetchBaselineNotams` pushes: if the cheerio selector found
no elements, parse candidate blocks with the regex fallback; either way a
candidate contributes a record only when its cleaned text is non-empty
(`if (cleaned.length > 0)`), and the synthetic id uses the candidate's
original index. -/
def fetchBaselineRecords (divTexts : List String) (html : String) (now : Int) : List Notam :=
  match divTexts with
  | [] =>
    (regexFallbackBlocks html).enum.filterMap (fun p =>
      if (blockCleaned p.2).length > 0 then
        some (baselineRecordOf now p.1 (blockCleaned p.2))
      else none)
  | _ :: _ =>
    divTexts.enum.filterMap (fun p =>
      if (divCleaned p.2).length > 0 then
        some (baselineRecordOf now p.1 (divCleaned p.2))
      else none)

/-- One `fetchBaselineNotams` invocation against the store: a failed fetch
(`htmlResult = none`, the axios call threw) is caught at lines 308-310 and
leaves the state untouched; a successful fetch pushes the parsed records
and applies each to the navaid flags. -/
def fetchBaselineStep (htmlResult : Option String) (divTexts : List String)
    (now : Int) (st : ServerState) : ServerState :=
  match htmlResult with
  | none => st
  | some html =>
    let recs := fetchBaselineRecords divTexts html now
    ⟨st.activeNotams ++ recs, recs.foldl updateNavaidsFromNotam st.navaids⟩

/-! ## part_001 variant: SWIM cache + OurAirports fallback cache -/

/-- The record shape of the part_001 server (`{ id, text }`). -/
structure SwimRec where
  id : String
  text : String
deriving DecidableEq, Repr

/-- Embeds `fetchFallbackNotams` (src/unnamed/part_001 lines 118-143) as a state
transformer on the `fallbackNotams` cache: a successful fetch-and-parse
(`outcome = some batch`) assigns the new batch; a failed fetch
(`outcome = none`, the axios call threw) is caught at lines 139-142, which
assign `fallbackNotams = []` — the prior cache is discarded either way. -/
def fetchFallbackCycle (outcome : Option (List SwimRec)) (prior : List SwimRec) :
    List SwimRec :=
  match outcome with
  | some batch => batch
  | none => []

/-- Embeds `GET /api/notams` of the part_001 server (lines 151-159): serve the
SWIM cache if non-empty, else the fallback cache. -/
def apiNotams01 (swim fallback : List SwimRec) : List SwimRec :=
  if swim.length > 0 then swim else fallback

/-! ## part_003 xml2js consumer variant (src/unnamed/part_003 lines 712-742) -/

/-- The fields the xml2js consumer drills out of `parsed.digitalNotam.notam[0]`
(`none` models an absent element). -/
structure ParsedNotam where
  idAttr : Option String
  text : Option String
  startDateTime : Option Int
  endDateTime : Option Int

/-- The record shape of that variant (`{ id, text, startTime, endTime }`). -/
structure FeedRecord where
  id : String
  text : String
  startTime : Int
  endTime : Int
deriving DecidableEq, Repr

/-- Lines 721-727: defaults for each missing field; in particular
`endTime = notam.endDateTime?.[0] || new Date(Date.now() + 24*3600*1000)`. -/
def mkFeedRecord (p : ParsedNotam) (now : Int) : FeedRecord :=
  ⟨p.idAttr.getD ("NOTAM-" ++ toString now),
   p.text.getD "UNKNOWN NOTAM",
   p.startDateTime.getD now,
   p.endDateTime.getD (now + 86400000)⟩

/-! ## Lemmas about the navaid derivation -/

/-- The uppercased-text outage test feeding each flag. -/
def ils10Hit (n : Notam) : Bool := ils10OutageCL (upperCL n.text.toList)

def ils28Hit (n : Notam) : Bool := ils28OutageCL (upperCL n.text.toList)

def mgmHit (n : Notam) : Bool := mgmOutageCL (upperCL n.text.toList)

def mxfHit (n : Notam) : Bool := mxfOutageCL (upperCL n.text.toList)

theorem update_ils10 (st : NavaidsStatus) (n : Notam) :
    (updateNavaidsFromNotam st n).ils10 = (st.ils10 && !(ils10Hit n)) := by
  simp only [updateNavaidsFromNotam, ils10Hit, String.toList]
  by_cases h1 : ils10OutageCL (upperCL n.text.data) <;>
    by_cases h2 : ils28OutageCL (upperCL n.text.data) <;>
      by_cases h3 : mgmOutageCL (upperCL n.text.data) <;>
        by_cases h4 : mxfOutageCL (upperCL n.text.data) <;>
          simp [h1, h2, h3, h4]

theorem update_ils28 (st : NavaidsStatus) (n : Notam) :
    (updateNavaidsFromNotam st n).ils28 = (st.ils28 && !(ils28Hit n)) := by
  simp only [updateNavaidsFromNotam, ils28Hit, String.toList]
  by_cases h1 : ils10OutageCL (upperCL n.text.data) <;>
    by_cases h2 : ils28OutageCL (upperCL n.text.data) <;>
      by_cases h3 : mgmOutageCL (upperCL n.text.data) <;>
        by_cases h4 : mxfOutageCL (upperCL n.text.data) <;>
          simp [h1, h2, h3, h4]

theorem update_mgm (st : NavaidsStatus) (n : Notam) :
    (updateNavaidsFromNotam st n).mgm = (st.mgm && !(mgmHit n)) := by
  simp only [updateNavaidsFromNotam, mgmHit, String.toList]
  by_cases h1 : ils10OutageCL (upperCL n.text.data) <;>
    by_cases h2 : ils28OutageCL (upperCL n.text.data) <;>
      by_cases h3 : mgmOutageCL (upperCL n.text.data) <;>
        by_cases h4 : mxfOutageCL (upperCL n.text.data) <;>
          simp [h1, h2, h3, h4]

theorem update_mxf (st : NavaidsStatus) (n : Notam) :
    (updateNavaidsFromNotam st n).mxf = (st.mxf && !(mxfHit n)) := by
  simp only [updateNavaidsFromNotam, mxfHit, String.toList]
  by_cases h1 : ils10OutageCL (upperCL n.text.data) <;>
    by_cases h2 : ils28OutageCL (upperCL n.text.data) <;>
      by_cases h3 : mgmOutageCL (upperCL n.text.data) <;>
        by_cases h4 : mxfOutageCL (upperCL n.text.data) <;>
          simp [h1, h2, h3, h4]

theorem foldl_update_ils10 (rs : List Notam) (st : NavaidsStatus) :
    (rs.foldl updateNavaidsFromNotam st).ils10 =
      (st.ils10 && rs.all (fun n => !(ils10Hit n))) := by
  induction rs generalizing st with
  | nil => simp
  | cons n ns ih =>
    simp only [List.foldl_cons, List.all_cons, ih, update_ils10]
    cases st.ils10 <;> cases h : ils10Hit n <;> simp

theorem foldl_update_ils28 (rs : List Notam) (st : NavaidsStatus) :
    (rs.foldl updateNavaidsFromNotam st).ils28 =
      (st.ils28 && rs.all (fun n => !(ils28Hit n))) := by
  induction rs generalizing st with
  | nil => simp
  | cons n ns ih =>
    simp only [List.foldl_cons, List.all_cons, ih, update_ils28]
    cases st.ils28 <;> cases h : ils28Hit n <;> simp

theorem foldl_update_mgm (rs : List Notam) (st : NavaidsStatus) :
    (rs.foldl updateNavaidsFromNotam st).mgm =
      (st.mgm && rs.all (fun n => !(mgmHit n))) := by
  induction rs generalizing st with
  | nil => simp
  | cons n ns ih =>
    simp only [List.foldl_cons, List.all_cons, ih, update_mgm]
    cases st.mgm <;> cases h : mgmHit n <;> simp

theorem foldl_update_mxf (rs : List Notam) (st : NavaidsStatus) :
    (rs.foldl updateNavaidsFromNotam st).mxf =
      (st.mxf && rs.all (fun n => !(mxfHit n))) := by
  induction rs generalizing st with
  | nil => simp
  | cons n ns ih =>
    simp only [List.foldl_cons, List.all_cons, ih, update_mxf]
    cases st.mxf <;> cases h : mxfHit n <;> simp

theorem deriveNavaids_ils10 (rs : List Notam) :
    (deriveNavaids rs).ils10 = false ↔ ∃ n ∈ rs, ils10Hit n = true := by
  simp only [deriveNavaids, foldl_update_ils10, allAvailable, Bool.true_and]
  simp [List.all_eq_false]

/-- A filter that removes nothing (witnessed by its length) is the
identity. -/
theorem filter_eq_self_of_length {α} (p : α → Bool) (l : List α)
    (h : (l.filter p).length = l.length) : l.filter p = l :=
  (List.filter_sublist l).eq_of_length h

/-! ## Claim theorems -/

/-- C2: for every list of records and every time `now`, the sweep removes
exactly the records with `endTime <= now`: the survivors are a sublist of
the input (all fields unchanged, original relative order); every survivor
has `endTime > now`; every record with `endTime > now` survives, with its
multiplicity unchanged. -/
theorem sweep_spec (now : Int) (rs : List Notam) :
    (sweepRecords now rs).Sublist rs ∧
    (∀ r ∈ sweepRecords now rs, now < r.endTime) ∧
    (∀ r ∈ rs, now < r.endTime → r ∈ sweepRecords now rs) ∧
    (∀ r : Notam, now < r.endTime → (sweepRecords now rs).count r = rs.count r) := by
  refine ⟨List.filter_sublist rs, ?_, ?_, ?_⟩
  · intro r hr
    have := (List.mem_filter.mp hr).2
    simpa using this
  · intro r hr h
    exact List.mem_filter.mpr ⟨hr, by simpa using h⟩
  · intro r h
    exact List.count_filter (by simpa using h)

def c2live : Notam := ⟨"L1", "KMGM", "TWY A CLSD", 0, 10⟩

def c2dead : Notam := ⟨"D1", "KMGM", "TWY B CLSD", 0, 3⟩

/-- C2 witness: a record expiring at 10 survives a sweep at 5 of a store
that also holds a record expiring at 3. -/
theorem sweep_spec_witness : c2live ∈ sweepRecords 5 [c2live, c2dead] :=
  (sweep_spec 5 [c2live, c2dead]).2.2.1 c2live (by decide) (by decide)

/-- Pointwise availability order used to state monotonicity: every flag
available in `x` is available in `y`. -/
def navaidsLe (x y : NavaidsStatus) : Prop :=
  (x.ils10 = true → y.ils10 = true) ∧ (x.ils28 = true → y.ils28 = true) ∧
    (x.mgm = true → y.mgm = true) ∧ (x.mxf = true → y.mxf = true)

/-- C9: `updateNavaidsFromNotam` is monotone non-increasing on
availability — a single application, and hence any fold over a record
sequence, only ever turns flags from available to unavailable; with no
reset, no navaid ever recovers. -/
theorem update_monotone (st : NavaidsStatus) (n : Notam) (rs : List Notam) :
    navaidsLe (updateNavaidsFromNotam st n) st ∧
    navaidsLe (rs.foldl updateNavaidsFromNotam st) st := by
  constructor
  · refine ⟨fun h => ?_, fun h => ?_, fun h => ?_, fun h => ?_⟩
    · simp only [update_ils10, Bool.and_eq_true] at h; exact h.1
    · simp only [update_ils28, Bool.and_eq_true] at h; exact h.1
    · simp only [update_mgm, Bool.and_eq_true] at h; exact h.1
    · simp only [update_mxf, Bool.and_eq_true] at h; exact h.1
  · refine ⟨fun h => ?_, fun h => ?_, fun h => ?_, fun h => ?_⟩
    · simp only [foldl_update_ils10, Bool.and_eq_true] at h; exact h.1
    · simp only [foldl_update_ils28, Bool.and_eq_true] at h; exact h.1
    · simp only [foldl_update_mgm, Bool.and_eq_true] at h; exact h.1
    · simp only [foldl_update_mxf, Bool.and_eq_true] at h; exact h.1

def c9start : NavaidsStatus := ⟨false, true, true, false⟩

def c9record : Notam := ⟨"N1", "KMGM", "MGM TACAN U/S", 0, 10⟩

/-- C9 witness: applied at a state with `ils10` and `mxf` already
unavailable and a TACAN-outage record. -/
theorem update_monotone_witness :
    navaidsLe (updateNavaidsFromNotam c9start c9record) c9start ∧
    navaidsLe ([c9record].foldl updateNavaidsFromNotam c9start) c9start :=
  update_monotone c9start c9record [c9record]

/-- C10: `notamPriority` is total and deterministic by construction; on
every input it returns a value in the set 1-4, and it returns 1 whenever
any critical keyword is contained in the uppercased text, regardless of
what other keywords appear. -/
theorem notamPriority_spec (s : String) :
    (notamPriority s = 1 ∨ notamPriority s = 2 ∨ notamPriority s = 3 ∨
      notamPriority s = 4) ∧
    (criticalKeywords.any (fun k => containsCL k.toList (upperCL s.toList)) = true →
      notamPriority s = 1) := by
  constructor
  · unfold notamPriority
    split
    · exact Or.inl rfl
    · split
      · exact Or.inr (Or.inl rfl)
      · split
        · exact Or.inr (Or.inr (Or.inl rfl))
        · exact Or.inr (Or.inr (Or.inr rfl))
  · intro h
    unfold notamPriority
    rw [if_pos h]

/-- C10 witness: a text containing a critical keyword (`CLSD`) together
with high- and medium-tier keywords (`WIP`, `BIRD`) classifies as 1. -/
theorem notamPriority_spec_witness : notamPriority "rwy 10/28 Clsd wip bird" = 1 :=
  (notamPriority_spec "rwy 10/28 Clsd wip bird").2 (by decide)

/-- C3: at any state whose flags equal the derivation of its active set
(the invariant every reachable state satisfies, since ingestion starts
all-available and applies `updateNavaidsFromNotam` per insert), a sweep
tick leaves the flags equal to the derivation of the surviving records;
`ils10` is unavailable iff some surviving (hence non-expired) record
matches the ILS-10 outage pattern — so removal of the triggering record
recovers the navaid with no explicit restore event, and the flags never
reflect expired records. -/
theorem navaid_derivation (st : ServerState) (now : Int)
    (h : st.navaids = deriveNavaids st.activeNotams) :
    ((sweepStep now st).navaids = deriveNavaids (sweepStep now st).activeNotams) ∧
    (((sweepStep now st).navaids.ils10 = false) ↔
      ∃ n ∈ (sweepStep now st).activeNotams, ils10Hit n = true) ∧
    (∀ n ∈ (sweepStep now st).activeNotams, now < n.endTime) := by
  have hrem : sweepStep now st =
      ⟨sweepRecords now st.activeNotams,
        deriveNavaids (sweepRecords now st.activeNotams)⟩ := by
    unfold sweepStep
    by_cases hl : (sweepRecords now st.activeNotams).length = st.activeNotams.length
    · have heq := filter_eq_self_of_length _ _ hl
      simp only [sweepRecords] at heq ⊢
      simp [hl, heq, h, deriveNavaids]
    · simp [hl]
  rw [hrem]
  refine ⟨rfl, deriveNavaids_ils10 _, ?_⟩
  intro n hn
  have := (List.mem_filter.mp hn).2
  simpa using this

def c3record : Notam := ⟨"900", "KMGM", "A) KMGM ILS RWY 10 UNSERVICEABLE", 0, 3⟩

def c3state : ServerState := ⟨[c3record], deriveNavaids [c3record]⟩

/-- C3 witness: a state holding one ILS-10-outage record that expires at 3,
swept at 5. -/
theorem navaid_derivation_witness :
    ((sweepStep 5 c3state).navaids = deriveNavaids (sweepStep 5 c3state).activeNotams) ∧
    (((sweepStep 5 c3state).navaids.ils10 = false) ↔
      ∃ n ∈ (sweepStep 5 c3state).activeNotams, ils10Hit n = true) ∧
    (∀ n ∈ (sweepStep 5 c3state).activeNotams, (5 : Int) < n.endTime) :=
  navaid_derivation c3state 5 rfl

/-- C6: a feed message with no extractable payload, or whose cleaned text
does not contain the configured airfield `KMGM`, leaves the whole state
unchanged (no record inserted, no record modified, navaid flags untouched),
and consuming it in a stream is the same as consuming the rest. -/
theorem message_dropped (now : Int) (m : SwimMsg) (st : ServerState) :
    (extractPayload m = none → handleMessage now m st = st) ∧
    (∀ xml, extractPayload m = some xml → kmgmKeep xml = false →
      handleMessage now m st = st) ∧
    (∀ ms, extractPayload m = none →
      handleMessages now (m :: ms) st = handleMessages now ms st) := by
  refine ⟨?_, ?_, ?_⟩
  · intro h
    simp [handleMessage, h]
  · intro xml he hk
    simp [handleMessage, he, hk]
  · intro ms h
    simp [handleMessages, handleMessage, h]

def c6msg : SwimMsg := ⟨some "<x>KXYZ A) RWY 10 CLSD</x>", none, none⟩

def c6rec : Notam := ⟨"77", "KMGM", "TWY A CLSD", 0, 10⟩

def c6state : ServerState := ⟨[c6rec], allAvailable⟩

/-- C6 witness: a message whose payload mentions only `KXYZ` leaves a
non-empty store unchanged. -/
theorem message_dropped_witness : handleMessage 7 c6msg c6state = c6state :=
  (message_dropped 7 c6msg c6state).2.1 "<x>KXYZ A) RWY 10 CLSD</x>" rfl (by decide)

/-- C8: every record the feed handler inserts carries
`endTime = now + 24h` (the handler never extracts an end time, so every
ingested record gets the fixed default horizon, never an unbounded value);
and in the xml2js consumer variant, a parsed notam with no extractable
`endDateTime` is stored with `endTime = now + 24h`. -/
theorem endTime_default (now : Int) (m : SwimMsg) (st : ServerState) (p : ParsedNotam) :
    (∀ n ∈ (handleMessage now m st).activeNotams,
      n ∈ st.activeNotams ∨ n.endTime = now + 86400000) ∧
    (p.endDateTime = none → (mkFeedRecord p now).endTime = now + 86400000) := by
  constructor
  · intro n hn
    unfold handleMessage at hn
    cases he : extractPayload m with
    | none => rw [he] at hn; exact Or.inl hn
    | some xml =>
      rw [he] at hn
      by_cases hk : kmgmKeep xml
      · simp only [hk, if_true] at hn
        rcases List.mem_append.mp hn with h | h
        · exact Or.inl h
        · right
          have := List.mem_singleton.mp h
          rw [this]
      · simp only [hk, if_false] at hn
        exact Or.inl hn
  · intro h
    simp [mkFeedRecord, h]

def c8parsed : ParsedNotam := ⟨some "01/001", some "KMGM TWY A CLSD", some 0, none⟩

/-- C8 witness: a parsed record with no `endDateTime`, ingested at time
100, is stored expiring at 100 + 86400000. -/
theorem endTime_default_witness : (mkFeedRecord c8parsed 100).endTime = 100 + 86400000 :=
  (endTime_default 100 ⟨none, none, none⟩ ⟨[], allAvailable⟩ c8parsed).2 rfl

def c1msgA : SwimMsg := ⟨some "<x>A) KMGM RWY 10 CLSD</x>", none, none⟩

def c1msgB : SwimMsg := ⟨some "<x>A) KMGM TWY B CLSD</x>", none, none⟩

/-- C1 counterexample: two kept feed messages processed at the same clock
reading 1000 both get id `"1000"`; afterwards the store holds two records
with that id — not exactly one — and both texts are retained (the insert is
a plain push, not a replace-by-id). -/
theorem upsert_dedup_counterexample :
    (((handleMessage 1000 c1msgB (handleMessage 1000 c1msgA
          ⟨[], allAvailable⟩)).activeNotams.filter
        (fun n => n.id == "1000")).length = 2) ∧
    ((handleMessage 1000 c1msgB (handleMessage 1000 c1msgA
          ⟨[], allAvailable⟩)).activeNotams.map (fun n => n.text) =
      ["A) KMGM RWY 10 CLSD", "A) KMGM TWY B CLSD"]) := by
  constructor
  · rfl
  · rfl

/-- C1 (amended): the store keeps at most one record per id only if ids
never repeat; the insert path appends unconditionally, so two kept
messages handled at the same timestamp leave two records with that id,
increasing the count of records with `id = toString now` by exactly 2. -/
theorem upsert_appends (now : Int) (m1 m2 : SwimMsg) (st : ServerState)
    (x1 x2 : String) (h1 : extractPayload m1 = some x1) (k1 : kmgmKeep x1 = true)
    (h2 : extractPayload m2 = some x2) (k2 : kmgmKeep x2 = true) :
    ((handleMessage now m2 (handleMessage now m1 st)).activeNotams.filter
        (fun n => n.id == toString now)).length =
      (st.activeNotams.filter (fun n => n.id == toString now)).length + 2 := by
  simp [handleMessage, h1, k1, h2, k2, List.filter_append]

/-- C1 witness for the amended statement: the two concrete messages of the
counterexample. -/
theorem upsert_appends_witness :
    (((handleMessage 1000 c1msgB (handleMessage 1000 c1msgA
          ⟨[], allAvailable⟩)).activeNotams.filter
        (fun n => n.id == toString (1000 : Int))).length =
      (([] : List Notam).filter (fun n => n.id == toString (1000 : Int))).length + 2) :=
  upsert_appends 1000 c1msgA c1msgB ⟨[], allAvailable⟩ _ _ rfl (by decide) rfl (by decide)

def expiredKmgm : Notam := ⟨"X1", "KMGM", "TWY A CLSD", 0, 0⟩

/-- C4 counterexample: the query applies no expiry filter — a record whose
`endTime` (0) is already past at `now = 5` is still returned, so the query
does not return exactly the non-expired records. -/
theorem queryActive_counterexample :
    apiNotams [expiredKmgm] = [expiredKmgm] ∧ expiredKmgm.endTime ≤ 5 := by
  constructor
  · have hf : [expiredKmgm].filter kmgmMatch = [expiredKmgm] := rfl
    unfold apiNotams
    rw [hf]
    exact List.mergeSort_singleton expiredKmgm
  · decide

theorem priorityLe_trans : ∀ a b c : Notam, priorityLe a b → priorityLe b c →
    priorityLe a c := by
  intro a b c hab hbc
  simp only [priorityLe, decide_eq_true_eq] at *
  omega

theorem priorityLe_total : ∀ a b : Notam, priorityLe a b || priorityLe b a := by
  intro a b
  simp only [priorityLe, Bool.or_eq_true, decide_eq_true_eq]
  omega

/-- C4 (amended): the query returns the records whose `icao` is `KMGM` or
whose text contains `KMGM` — with no expiry filter, so expired records not
yet removed by the sweep are included — sorted by priority ascending, and
the sort is stable: for each priority value, the returned records of that
priority are exactly the matching store records in their original arrival
order. -/
theorem queryActive_amended (rs : List Notam) :
    ((apiNotams rs).Pairwise
      (fun a b => notamPriority a.text ≤ notamPriority b.text)) ∧
    (∀ n, n ∈ apiNotams rs ↔ n ∈ rs ∧ kmgmMatch n = true) ∧
    (∀ p : Nat, (apiNotams rs).filter (fun n => notamPriority n.text == p) =
      (rs.filter kmgmMatch).filter (fun n => notamPriority n.text == p)) := by
  refine ⟨?_, ?_, ?_⟩
  · have hs := List.sorted_mergeSort priorityLe_trans priorityLe_total
      (rs.filter kmgmMatch)
    exact hs.imp (fun h => by simpa [priorityLe, decide_eq_true_eq] using h)
  · intro n
    constructor
    · intro h
      exact List.mem_filter.mp (List.mem_mergeSort.mp h)
    · intro h
      exact List.mem_mergeSort.mpr (List.mem_filter.mpr ⟨h.1, h.2⟩)
  · intro p
    have hqq : ((rs.filter kmgmMatch).filter
        (fun n => notamPriority n.text == p)).filter
          (fun n => notamPriority n.text == p) =
        (rs.filter kmgmMatch).filter (fun n => notamPriority n.text == p) := by
      simp [List.filter_filter]
    have hpw : ((rs.filter kmgmMatch).filter
        (fun n => notamPriority n.text == p)).Pairwise
          (fun a b => priorityLe a b) := by
      apply List.pairwise_of_forall_mem_list
      intro a ha b hb
      have hap := (List.mem_filter.mp ha).2
      have hbp := (List.mem_filter.mp hb).2
      simp only [beq_iff_eq] at hap hbp
      simp [priorityLe, hap, hbp]
    have hsub : List.Sublist
        ((rs.filter kmgmMatch).filter (fun n => notamPriority n.text == p))
        (apiNotams rs) :=
      List.sublist_mergeSort priorityLe_trans priorityLe_total hpw
        (List.filter_sublist _)
    have hsub2 : List.Sublist
        ((rs.filter kmgmMatch).filter (fun n => notamPriority n.text == p))
        ((apiNotams rs).filter (fun n => notamPriority n.text == p)) := by
      have := hsub.filter (fun n => notamPriority n.text == p)
      rwa [hqq] at this
    have hperm : List.Perm
        ((apiNotams rs).filter (fun n => notamPriority n.text == p))
        ((rs.filter kmgmMatch).filter (fun n => notamPriority n.text == p)) :=
      (List.mergeSort_perm (rs.filter kmgmMatch) priorityLe).filter _
    exact (hsub2.eq_of_length hperm.length_eq.symm).symm

def c4bird : Notam := ⟨"A7", "KMGM", "bird activity", 0, 9⟩

def c4clsd : Notam := ⟨"B7", "KMGM", "RWY 10 CLSD", 0, 9⟩

def c4bird2 : Notam := ⟨"C7", "KMGM", "more bird flocks", 0, 9⟩

/-- C4 witness: on a store with two medium-tier records around a critical
one, the query output is priority-sorted. -/
theorem queryActive_amended_witness :
    ((apiNotams [c4bird, c4clsd, c4bird2]).Pairwise
      (fun a b => notamPriority a.text ≤ notamPriority b.text)) :=
  (queryActive_amended [c4bird, c4clsd, c4bird2]).1

/-- A `filterMap` by a function that succeeds on every element of the list
preserves length. -/
theorem length_filterMap_of_all_some {α β} (f : α → Option β) (l : List α)
    (h : ∀ x ∈ l, (f x).isSome) : (l.filterMap f).length = l.length := by
  induction l with
  | nil => rfl
  | cons a as ih =>
    have ha := h a (by simp)
    cases hfa : f a with
    | none => rw [hfa] at ha; simp at ha
    | some b =>
      simp [List.filterMap_cons, hfa, ih (fun x hx => h x (by simp [hx]))]

/-- The second component of an `enum` entry is an element of the list. -/
theorem snd_mem_of_mem_enum {α} {l : List α} {x : Nat × α} (h : x ∈ l.enum) :
    x.2 ∈ l := by
  have hm := List.mem_map_of_mem Prod.snd h
  rwa [List.enum_map_snd] at hm

theorem fetchBaselineRecords_nil (html : String) (now : Int) :
    fetchBaselineRecords [] html now =
      (regexFallbackBlocks html).enum.filterMap (fun p =>
        if (blockCleaned p.2).length > 0 then
          some (baselineRecordOf now p.1 (blockCleaned p.2))
        else none) := rfl

theorem fetchBaselineRecords_cons (d : String) (ds : List String) (html : String)
    (now : Int) :
    fetchBaselineRecords (d :: ds) html now =
      (d :: ds).enum.filterMap (fun p =>
        if (divCleaned p.2).length > 0 then
          some (baselineRecordOf now p.1 (divCleaned p.2))
        else none) := rfl

/-- C7 counterexample: three candidate blocks from the regex fallback, but
the first block (`NOTAMN`) cleans to the empty string and is skipped, so
only 2 records are produced — not exactly 3. -/
theorem scraper_blocks_counterexample :
    ((regexFallbackBlocks
        "NOTAMN</p>NOTAM A) RWY 10 CLSD</p>NOTAM A) TWY B CLSD</p>").length = 3) ∧
    ((fetchBaselineRecords []
        "NOTAMN</p>NOTAM A) RWY 10 CLSD</p>NOTAM A) TWY B CLSD</p>" 0).length = 2) :=
  ⟨rfl, rfl⟩

/-- C7 (amended): the scraper uses the regex fallback exactly when the
cheerio strategy yields zero candidates, and inserts exactly the candidate
blocks whose cleaned text is non-empty — in particular, when every block
cleans non-empty, 3 candidate blocks yield exactly 3 records. -/
theorem scraper_strategies (divTexts : List String) (html : String) (now : Int) :
    (divTexts = [] →
      (∀ b ∈ regexFallbackBlocks html, (blockCleaned b).length > 0) →
      (fetchBaselineRecords divTexts html now).length =
        (regexFallbackBlocks html).length) ∧
    (divTexts ≠ [] →
      (∀ d ∈ divTexts, (divCleaned d).length > 0) →
      (fetchBaselineRecords divTexts html now).length = divTexts.length) := by
  constructor
  · intro hd hall
    subst hd
    rw [fetchBaselineRecords_nil, length_filterMap_of_all_some]
    · simp [List.enum_length]
    · intro x hx
      have hb := hall x.2 (snd_mem_of_mem_enum hx)
      simp [hb]
  · intro hd hall
    match divTexts, hd with
    | d :: ds, _ =>
      rw [fetchBaselineRecords_cons, length_filterMap_of_all_some]
      · simp [List.enum_length]
      · intro x hx
        have hb := hall x.2 (snd_mem_of_mem_enum hx)
        simp [hb]

/-- C7 witness: three candidate blocks, each cleaning to non-empty text,
produce exactly three records. -/
theorem scraper_strategies_witness :
    (fetchBaselineRecords []
        "NOTAM A) KMGM RWY 10 CLSD</p>NOTAM A) TWY C CLSD</p>NOTAM A) APRON CLSD</p>"
        0).length =
      (regexFallbackBlocks
        "NOTAM A) KMGM RWY 10 CLSD</p>NOTAM A) TWY C CLSD</p>NOTAM A) APRON CLSD</p>").length :=
  (scraper_strategies []
    "NOTAM A) KMGM RWY 10 CLSD</p>NOTAM A) TWY C CLSD</p>NOTAM A) APRON CLSD</p>" 0).1
    rfl (by decide)

def priorFallbackBatch : List SwimRec := [⟨"M0001/25", "M0001/25 RWY 10/28 CLSD"⟩]

/-- C5: in the part_001 variant, a failed fetch empties the fallback cache:
before the failed cycle the prior batch is what the query serves, after it
the query serves nothing — the prior fallback-sourced records do not remain
queryable, contradicting the spec's requirement that a failed fetch must
not replace the prior batch. -/
theorem fallback_cleared_on_failure :
    fetchFallbackCycle none priorFallbackBatch = [] ∧
    apiNotams01 [] priorFallbackBatch = priorFallbackBatch ∧
    apiNotams01 [] (fetchFallbackCycle none priorFallbackBatch) = [] ∧
    priorFallbackBatch ≠ [] := by
  refine ⟨rfl, rfl, rfl, by decide⟩

end AirfieldDashboard
